import Mathlib

/-!
Verification of the daily audio-scheduler (`audio-player.py`).

The development shallowly embeds the scheduling-relevant code of the
repository:

* `load_state` / `save_state`            — the playback state store,
* `play_audio`                           — the playback path (incl. the
                                           already-played check and the
                                           failure handler),
* `load_schedule` / `schedule_audio_jobs`— configuration loading and the
                                           job resolver,
* the `schedule` library's daily-job semantics (`Job.nextRun`,
  `run_pending`) and `main`'s `schedule` loop.

Machine-level side conditions that the Python runtime supplies are made
explicit: values read from JSON are an inductive `Json`, operations that
can raise (`.get` on a non-dict, `[...]` on a missing key, `in` on a
non-container, `.append` on a non-list) return `Except PyError`, and
Python's `==` between a `str` and an arbitrary parsed-JSON value is
modelled by `pyEqStr`.
-/

namespace AudioScheduler

/-- Values produced by `json.load` (and, for the config, `yaml.safe_load`):
null, booleans, numbers, strings, arrays, and objects (insertion-ordered
association lists with distinct keys, as Python dicts are).  Numbers are
modelled as integers; no claim depends on fractional values. -/
inductive Json where
  | null
  | bool (b : Bool)
  | num (n : Int)
  | str (s : String)
  | arr (elems : List Json)
  | obj (fields : List (String × Json))

/-- The Python exceptions that the embedded code can raise and does not
catch. -/
inductive PyError where
  | attributeError
  | keyError
  | typeError
deriving DecidableEq

/-- Python `s == j` for a `str` `s` and a parsed-JSON value `j`: true
exactly when `j` is the same string. -/
def pyEqStr (s : String) (j : Json) : Bool :=
  match j with
  | .str t => s = t
  | _ => false

/-- Python `d.get(k)`: `None`/the value for a dict, `AttributeError` for
any other JSON value (lists, strings, numbers have no `.get`). -/
def jsonGet (j : Json) (k : String) : Except PyError (Option Json) :=
  match j with
  | .obj fields => .ok (fields.lookup k)
  | _ => .error .attributeError

/-- Python `d.get(k, default)`. -/
def jsonGetD (j : Json) (k : String) (d : Json) : Except PyError Json :=
  match j with
  | .obj fields => .ok ((fields.lookup k).getD d)
  | _ => .error .attributeError

/-- Python `d[k]` on the state object: the value when present, `KeyError`
when the key is missing, `TypeError` when `d` is not a dict (string
subscripts on lists/strings raise `TypeError`). -/
def jsonGetItem (j : Json) (k : String) : Except PyError Json :=
  match j with
  | .obj fields =>
    match fields.lookup k with
    | some v => .ok v
    | none => .error .keyError
  | _ => .error .typeError

/-- In-place mutation of the value stored under key `k` of a dict (the
Python code mutates the list held in the dict, which leaves key order
unchanged). -/
def jsonSetField (j : Json) (k : String) (v : Json) : Json :=
  match j with
  | .obj fields => .obj (fields.map (fun p => if p.1 = k then (k, v) else p))
  | _ => j

/-- `n` occurs as a substring of `h` (Python `needle in haystack` for
strings; the empty needle is always contained). -/
def charsInfix (n : List Char) : List Char → Bool
  | [] => n.isEmpty
  | c :: t => n.isPrefixOf (c :: t) || charsInfix n t

/-- Python `s in j` for a `str` `s`: list membership by `==` for arrays,
substring for strings, key membership for dicts, `TypeError` otherwise. -/
def pyIn (s : String) (j : Json) : Except PyError Bool :=
  match j with
  | .arr xs => .ok (xs.any (pyEqStr s))
  | .str t => .ok (charsInfix s.data t.data)
  | .obj fields => .ok (fields.any (fun p => s = p.1))
  | _ => .error .typeError

/-- Python `lst.append(s)` on a parsed-JSON value: only lists have
`.append`. -/
def jsonAppend (j : Json) (s : String) : Except PyError Json :=
  match j with
  | .arr xs => .ok (.arr (xs ++ [.str s]))
  | _ => .error .attributeError

/-- Python `lst.remove(s)`: drop the first element `== s`. -/
def pyRemoveStr (s : String) : List Json → List Json
  | [] => []
  | x :: r => if pyEqStr s x then r else x :: pyRemoveStr s r

/-- Python `lst.remove(s)` on a parsed-JSON value: only lists have
`.remove` (the caller checks membership first, so the `ValueError` case of
`remove` never arises). -/
def jsonRemove (j : Json) (s : String) : Except PyError Json :=
  match j with
  | .arr xs => .ok (.arr (pyRemoveStr s xs))
  | _ => .error .attributeError

/-- The on-disk content of `play_state.json` as `load_state` can observe
it: missing file, present but not JSON (`json.load` raises
`JSONDecodeError`), or present and parsed to a JSON value. -/
inductive StateFile where
  | absent
  | invalid
  | parsed (j : Json)

/-- The fresh state `{"date": today, "played_calls": []}` built at lines
32 and 37 of `audio-player.py`. -/
def freshState (today : String) : Json :=
  .obj [("date", .str today), ("played_calls", .arr [])]

/-- Python `state.get('date') != today`: the comparison is `False` only
when the stored value is the string `today` (comparing `None` or a
non-string to a `str` yields `!=` true). -/
def dateMatches (d : Option Json) (today : String) : Bool :=
  match d with
  | some (.str t) => t = today
  | _ => false

/-- `load_state` (audio-player.py lines 24-37): absent file and
`JSONDecodeError` yield the fresh state; a parsed value is returned as-is
when its `date` is today and replaced by the fresh state otherwise.
`state.get('date')` on a non-dict value raises `AttributeError`, which the
function does not catch. -/
def load_state (f : StateFile) (today : String) : Except PyError Json :=
  match f with
  | .absent => .ok (freshState today)
  | .invalid => .ok (freshState today)
  | .parsed j =>
    match jsonGet j "date" with
    | .error e => .error e
    | .ok d => if dateMatches d today then .ok j else .ok (freshState today)

/-- Result of one `play_audio` call: the state-file content afterwards
(`save_state` catches `IOError`, so a reached write always lands), whether
the clip audibly played to completion, and the exception propagated out of
`play_audio`, if any. -/
structure PAResult where
  file : StateFile
  played : Bool
  err : Option PyError

/-- `play_audio` (audio-player.py lines 51-84).  `f` is the state file,
`today` the current date string, `deviceOk` whether the pygame playback
calls succeed (false ≙ `pygame.error` raised by load/play).  The clip
path and volume only reach the mixer, so they do not appear.  Order of
operations follows the source: load state, re-check the date, skip if the
call is already in `played_calls`, then play; on success append the call
name and save; on `pygame.error` remove-and-save only if the name is in
`played_calls`. -/
def play_audio (call_name : String) (f : StateFile) (today : String)
    (deviceOk : Bool) : PAResult :=
  match load_state f today with
  | .error e => ⟨f, false, some e⟩
  | .ok st0 =>
  match jsonGet st0 "date" with
  | .error e => ⟨f, false, some e⟩
  | .ok d =>
  let st := if dateMatches d today then st0 else freshState today
  match jsonGetD st "played_calls" (.arr []) with
  | .error e => ⟨f, false, some e⟩
  | .ok pc =>
  match pyIn call_name pc with
  | .error e => ⟨f, false, some e⟩
  | .ok true => ⟨f, false, none⟩
  | .ok false =>
    if deviceOk then
      match jsonGetItem st "played_calls" with
      | .error e => ⟨f, true, some e⟩
      | .ok lst =>
      match jsonAppend lst call_name with
      | .error e => ⟨f, true, some e⟩
      | .ok lst2 => ⟨.parsed (jsonSetField st "played_calls" lst2), true, none⟩
    else
      match jsonGetItem st "played_calls" with
      | .error e => ⟨f, false, some e⟩
      | .ok lst =>
      match pyIn call_name lst with
      | .error e => ⟨f, false, some e⟩
      | .ok true =>
        match jsonRemove lst call_name with
        | .error e => ⟨f, false, some e⟩
        | .ok lst2 => ⟨.parsed (jsonSetField st "played_calls" lst2), false, none⟩
      | .ok false => ⟨f, false, none⟩

/-- The `play` subcommand (audio-player.py line 186):
`play_audio(args.filepath, 'Manual Playback', args.volume)`.  The clip
path and volume are passed to the mixer only. -/
def manual_play (f : StateFile) (today : String) (deviceOk : Bool) :
    PAResult :=
  play_audio "Manual Playback" f today deviceOk

/-- One entry of the `weekdays`/`weekends` maps of `schedule.yml`:
`details.get('time')` and `details.get('audio_file')` as read at
audio-player.py lines 122-123 (`none` ≙ key missing). -/
structure CallEntry where
  time : Option String
  audio_file : Option String

/-- A schedule profile as iterated at line 121: call name ↦ entry, in
insertion order. -/
def SchedDict := List (String × CallEntry)

/-- The on-disk content of `schedule.yml`: missing file
(`FileNotFoundError`), unparseable (`yaml.YAMLError`), or parsed with
top-level `weekdays`/`weekends` maps (absent maps default to `{}` via
`.get`, which the `parsed` constructor's empty lists cover). -/
inductive ConfigFile where
  | absent
  | malformed
  | parsed (weekdays weekends : SchedDict)

/-- `load_schedule` (audio-player.py lines 87-100): both failure modes are
caught and logged, and the function returns `({}, {})`; it never raises
and never exits. -/
def load_schedule (cfg : ConfigFile) : Except PyError (SchedDict × SchedDict) :=
  match cfg with
  | .absent => .ok ([], [])
  | .malformed => .ok ([], [])
  | .parsed wk we => .ok (wk, we)

/-- `datetime.time.fromisoformat` on the `HH:MM` strings the schedule
uses, as minutes since midnight; any other string is a parse failure
(`ValueError`, caught at line 129 and turned into a skip). -/
def parseTime (s : String) : Option Nat :=
  match s.data with
  | [h1, h2, ':', m1, m2] =>
    if h1.isDigit ∧ h2.isDigit ∧ m1.isDigit ∧ m2.isDigit then
      let h := 10 * (h1.toNat - 48) + (h2.toNat - 48)
      let m := 10 * (m1.toNat - 48) + (m2.toNat - 48)
      if h < 24 ∧ m < 60 then some (60 * h + m) else none
    else none
  | _ => none

/-- An instant of the model's timeline: a day counter plus minutes since
midnight.  (`datetime.now(TIMEZONE)`; the code compares times at
sub-minute precision, but every schedule time has zero seconds, so minute
precision is exact for them.) -/
structure Instant where
  day : Nat
  tod : Nat

/-- `a <= b` on instants (the `schedule` library's `next_run <= now`
due-check). -/
def Instant.le (a b : Instant) : Bool :=
  a.day < b.day || (a.day = b.day && a.tod ≤ b.tod)

/-- A job registered with `schedule.every().day.at(t).do(play_audio,
audio_file, call)` (line 141): the call name, clip path, scheduled
time-of-day, and the library's `next_run`. -/
structure Job where
  call : String
  audio : String
  atTime : Nat
  nextRun : Instant

/-- The `schedule` library's `_schedule_next_run` for a
`every().day.at(t)` job evaluated at `now` (both at creation and after a
run): tomorrow at `t`, pulled back to today when `t` is still ahead of
`now`'s time-of-day. -/
def nextRunAfter (now : Instant) (t : Nat) : Instant :=
  if t > now.tod then ⟨now.day, t⟩ else ⟨now.day + 1, t⟩

/-- The date string `datetime.now(TIMEZONE).strftime('%Y-%m-%d')` for a
model day: distinct days yield distinct strings, which is all the code
compares. -/
def dateStr (d : Nat) : String := toString d

/-- The loop body of `schedule_audio_jobs` (audio-player.py lines
121-144) over the selected profile: skip entries with a missing or empty
(`falsy`) `time`/`audio_file`, skip on time-parse failure, and at initial
startup skip entries whose time already passed and that are not in
`played_calls` (the `in` check is only evaluated when the first two
conjuncts hold, mirroring Python's short-circuit `and`); every surviving
entry is registered as a daily job. -/
def buildJobs (initial : Bool) (now : Instant) (played : Json) :
    List (String × CallEntry) → Except PyError (List Job)
  | [] => .ok []
  | (call, details) :: rest =>
    match details.time, details.audio_file with
    | some ts, some af =>
      if ts ≠ "" ∧ af ≠ "" then
        match parseTime ts with
        | none => buildJobs initial now played rest
        | some t =>
          if initial ∧ now.tod > t then
            match pyIn call played with
            | .error e => .error e
            | .ok true =>
              match buildJobs initial now played rest with
              | .error e => .error e
              | .ok js => .ok (⟨call, af, t, nextRunAfter now t⟩ :: js)
            | .ok false => buildJobs initial now played rest
          else
            match buildJobs initial now played rest with
            | .error e => .error e
            | .ok js => .ok (⟨call, af, t, nextRunAfter now t⟩ :: js)
      else buildJobs initial now played rest
    | _, _ => buildJobs initial now played rest

/-- `schedule_audio_jobs` (audio-player.py lines 103-144): load the two
profiles, pick today's by weekday number (`0-4` weekday, `5-6` weekend),
clear the library's job list, load the playback state, and register one
daily job per surviving entry.  The result is the library's job list
after the call. -/
def schedule_audio_jobs (cfg : ConfigFile) (now : Instant) (dow : Nat)
    (f : StateFile) (initial_startup : Bool) : Except PyError (List Job) :=
  match load_schedule cfg with
  | .error e => .error e
  | .ok (wk, we) =>
    let selected := if dow ≤ 4 then wk else if dow ≤ 6 then we else []
    match load_state f (dateStr now.day) with
    | .error e => .error e
    | .ok state =>
      match jsonGetD state "played_calls" (.arr []) with
      | .error e => .error e
      | .ok played => buildJobs initial_startup now played selected

/-- The mutable system state of the `schedule` command: the content of
`play_state.json` plus the library's registered jobs. -/
structure Sys where
  file : StateFile
  jobs : List Job

/-- One pass of `schedule.run_pending()` over the job list: each job with
`next_run <= now` runs (`play_audio(audio_file, call)`), and on normal
return its `next_run` advances via `_schedule_next_run`; an exception
escaping `play_audio` propagates out of `run_pending`, leaving the
remaining jobs unrun and the failed job's `next_run` unchanged.  The
library iterates runnable jobs in ascending `next_run` order; jobs are
kept here in registration order, which agrees whenever at most one job is
due on a tick (every trace considered below). -/
def runJobs (now : Instant) (deviceOk : Bool) :
    List Job → StateFile → List Job × StateFile × Option PyError
  | [], f => ([], f, none)
  | j :: rest, f =>
    if Instant.le j.nextRun now then
      let r := play_audio j.call f (dateStr now.day) deviceOk
      match r.err with
      | some e => (j :: rest, r.file, some e)
      | none =>
        let (js, f', e) := runJobs now deviceOk rest r.file
        ({ j with nextRun := nextRunAfter now j.atTime } :: js, f', e)
    else
      let (js, f', e) := runJobs now deviceOk rest f
      (j :: js, f', e)

/-- `schedule.run_pending()` at instant `now` (audio-player.py line 191),
with `deviceOk` telling whether pygame playback succeeds on this tick. -/
def run_pending (now : Instant) (deviceOk : Bool) (sys : Sys) :
    Sys × Option PyError :=
  let (js, f, e) := runJobs now deviceOk sys.jobs sys.file
  (⟨f, js⟩, e)

/-- The `while True: schedule.run_pending(); time.sleep(1)` loop of the
`schedule` command (audio-player.py lines 190-192), sampled at the given
tick instants; an uncaught exception terminates the loop (and the
process). -/
def loopRun : List (Instant × Bool) → Sys → Sys
  | [], sys => sys
  | (now, ok) :: rest, sys =>
    match run_pending now ok sys with
    | (sys', none) => loopRun rest sys'
    | (sys', some _) => sys'

/-- A well-formed `play_state.json`: the shape `save_state` writes
(`{"date": today, "played_calls": [...]}`). -/
def wfFile (today : String) (l : List Json) : StateFile :=
  .parsed (.obj [("date", .str today), ("played_calls", .arr l)])

/-- Occurrences of the name `s` in a played-calls array, by Python
equality. -/
def countStr (s : String) (l : List Json) : Nat :=
  (l.filter (pyEqStr s)).length

lemma dateMatches_eq_true {d : Option Json} {today : String}
    (h : dateMatches d today = true) : d = some (.str today) := by
  match d with
  | some (.str t) =>
    simp only [dateMatches, decide_eq_true_eq] at h
    subst h; rfl
  | some .null | some (.bool _) | some (.num _) | some (.arr _)
  | some (.obj _) | none => simp [dateMatches] at h

lemma dateMatches_self (t : String) : dateMatches (some (.str t)) t = true := by
  simp [dateMatches]

lemma lookup_date (v w : Json) :
    List.lookup "date" [("date", v), ("played_calls", w)] = some v := rfl

lemma lookup_played (v w : Json) :
    List.lookup "played_calls" [("date", v), ("played_calls", w)] = some w := rfl

lemma load_state_wf (today : String) (l : List Json) :
    load_state (.parsed (.obj [("date", .str today), ("played_calls", .arr l)]))
      today = .ok (.obj [("date", .str today), ("played_calls", .arr l)]) := by
  simp [load_state, jsonGet, lookup_date, dateMatches_self]

/-- On a well-formed state file whose list contains the call, `play_audio`
returns without playing and without touching the file (lines 63-65). -/
lemma play_audio_wf_played {c today : String} {l : List Json}
    (h : l.any (pyEqStr c) = true) (ok : Bool) :
    play_audio c (wfFile today l) today ok =
      ⟨wfFile today l, false, none⟩ := by
  simp [wfFile, play_audio, load_state_wf, jsonGet, jsonGetD, pyIn,
    lookup_date, lookup_played, dateMatches_self, h]

/-- On a well-formed state file whose list lacks the call, a successful
playback appends the name and saves (lines 67-77). -/
lemma play_audio_wf_success {c today : String} {l : List Json}
    (h : l.any (pyEqStr c) = false) :
    play_audio c (wfFile today l) today true =
      ⟨wfFile today (l ++ [.str c]), true, none⟩ := by
  simp [wfFile, play_audio, load_state_wf, jsonGet, jsonGetD, pyIn,
    lookup_date, lookup_played, dateMatches_self, h, jsonGetItem, jsonAppend,
    jsonSetField]

/-- On a well-formed state file, a failed playback leaves the file
unchanged and plays nothing, whether or not the call is recorded. -/
lemma play_audio_wf_fail (c today : String) (l : List Json) :
    play_audio c (wfFile today l) today false =
      ⟨wfFile today l, false, none⟩ := by
  cases h : l.any (pyEqStr c) <;>
    simp [wfFile, play_audio, load_state_wf, jsonGet, jsonGetD, pyIn,
      lookup_date, lookup_played, dateMatches_self, h, jsonGetItem]

lemma parseTime_ne_empty {ts : String} {t : Nat} (h : parseTime ts = some t) :
    ts ≠ "" := by
  intro he; subst he; exact Option.noConfusion h

/-- The resolver loop never raises when `played_calls` is an array. -/
lemma buildJobs_arr_ok (i : Bool) (now : Instant) (l : List Json) :
    ∀ entries, ∃ js, buildJobs i now (.arr l) entries = .ok js := by
  intro entries
  induction entries with
  | nil => exact ⟨[], rfl⟩
  | cons p rest ih =>
    obtain ⟨js, hjs⟩ := ih
    obtain ⟨d, ts?, af?⟩ := p
    cases ts? with
    | none => exact ⟨js, hjs⟩
    | some ts =>
      cases af? with
      | none => exact ⟨js, hjs⟩
      | some af =>
        by_cases hne : ts ≠ "" ∧ af ≠ ""
        · cases hp : parseTime ts with
          | none => simp [buildJobs, hne, hp, hjs]
          | some t =>
            by_cases hcold : i ∧ now.tod > t
            · obtain ⟨hi, hgt⟩ := hcold
              subst hi
              cases hb : l.any (pyEqStr d) with
              | true =>
                exact ⟨⟨d, af, t, nextRunAfter now t⟩ :: js, by
                  simp [buildJobs, hne, hp, hgt, pyIn, hb, hjs]⟩
              | false => exact ⟨js, by simp [buildJobs, hne, hp, hgt, pyIn, hb, hjs]⟩
            · exact ⟨⟨d, af, t, nextRunAfter now t⟩ :: js, by
                simp [buildJobs, hne, hp, hcold, hjs]⟩
        · exact ⟨js, by simp [buildJobs, hne, hjs]⟩

/-- One resolver-loop step either skips the head entry or prepends exactly
the head entry's job. -/
lemma buildJobs_cons_step (i : Bool) (now : Instant) (l : List Json)
    (d : String) (details : CallEntry) (rest : List (String × CallEntry)) :
    buildJobs i now (.arr l) ((d, details) :: rest) =
        buildJobs i now (.arr l) rest ∨
      ∃ af t, ∀ js, buildJobs i now (.arr l) rest = .ok js →
        buildJobs i now (.arr l) ((d, details) :: rest) =
          .ok (⟨d, af, t, nextRunAfter now t⟩ :: js) := by
  obtain ⟨ts?, af?⟩ := details
  cases ts? with
  | none => exact .inl rfl
  | some ts =>
    cases af? with
    | none => exact .inl rfl
    | some af =>
      by_cases hne : ts ≠ "" ∧ af ≠ ""
      · cases hp : parseTime ts with
        | none => exact .inl (by simp [buildJobs, hne, hp])
        | some t =>
          by_cases hcold : i ∧ now.tod > t
          · obtain ⟨hi, hgt⟩ := hcold
            subst hi
            cases hb : l.any (pyEqStr d) with
            | true =>
              refine .inr ⟨af, t, fun js hjs => ?_⟩
              simp [buildJobs, hne, hp, hgt, pyIn, hb, hjs]
            | false => exact .inl (by simp [buildJobs, hne, hp, hgt, pyIn, hb])
          · refine .inr ⟨af, t, fun js hjs => ?_⟩
            simp [buildJobs, hne, hp, hcold, hjs]
      · exact .inl (by simp [buildJobs, hne])

/-- Entries whose call name never occurs contribute no job under that
name. -/
lemma buildJobs_not_mem (i : Bool) (now : Instant) (l : List Json)
    (c : String) :
    ∀ entries, entries.filter (fun p => p.1 = c) = [] →
      ∀ js, buildJobs i now (.arr l) entries = .ok js →
        c ∉ js.map Job.call := by
  intro entries
  induction entries with
  | nil =>
    intro _ js hjs
    cases hjs; simp
  | cons p rest ih =>
    intro hfil js hjs
    obtain ⟨d, details⟩ := p
    by_cases hdc : d = c
    · simp [List.filter_cons, hdc] at hfil
    · simp only [List.filter_cons] at hfil
      rw [if_neg (by simpa using hdc)] at hfil
      rcases buildJobs_cons_step i now l d details rest with hstep | ⟨af, t, hstep⟩
      · exact ih hfil js (hstep ▸ hjs)
      · obtain ⟨js', hjs'⟩ := buildJobs_arr_ok i now l rest
        rw [hstep js' hjs'] at hjs
        cases hjs
        simp only [List.map_cons, List.mem_cons]
        rintro (h | h)
        · exact hdc h.symm
        · exact ih hfil js' hjs' h

/-- When the sole entry named `c` has a valid time and clip, and the
resolver does not take the initial-startup skip for it (warm start, or a
time still ahead, or already played), `c` appears in the produced job
list. -/
lemma buildJobs_mem (i : Bool) (now : Instant) (l : List Json)
    (c ts af : String) (t : Nat) (hts : parseTime ts = some t) (haf : af ≠ "")
    (hinc : i = false ∨ ¬ now.tod > t ∨ l.any (pyEqStr c) = true) :
    ∀ entries, entries.filter (fun p => p.1 = c) = [(c, ⟨some ts, some af⟩)] →
      ∃ js, buildJobs i now (.arr l) entries = .ok js ∧
        c ∈ js.map Job.call := by
  intro entries
  induction entries with
  | nil => intro hfil; simp at hfil
  | cons p rest ih =>
    intro hfil
    obtain ⟨d, details⟩ := p
    by_cases hdc : d = c
    · subst hdc
      simp [List.filter_cons] at hfil
      obtain ⟨rfl, -⟩ := hfil
      obtain ⟨js, hjs⟩ := buildJobs_arr_ok i now l rest
      have hne : ts ≠ "" ∧ af ≠ "" := ⟨parseTime_ne_empty hts, haf⟩
      rcases hinc with hi | hgt | hpl
      · subst hi
        refine ⟨⟨d, af, t, nextRunAfter now t⟩ :: js, ?_, by simp⟩
        simp [buildJobs, hne, hts, hjs]
      · refine ⟨⟨d, af, t, nextRunAfter now t⟩ :: js, ?_, by simp⟩
        have : ¬ (i ∧ now.tod > t) := fun h => hgt h.2
        simp [buildJobs, hne, hts, this, hjs]
      · by_cases hcold : i ∧ now.tod > t
        · obtain ⟨hi, hgt⟩ := hcold
          subst hi
          refine ⟨⟨d, af, t, nextRunAfter now t⟩ :: js, ?_, by simp⟩
          simp [buildJobs, hne, hts, hgt, pyIn, hpl, hjs]
        · refine ⟨⟨d, af, t, nextRunAfter now t⟩ :: js, ?_, by simp⟩
          simp [buildJobs, hne, hts, hcold, hjs]
    · simp only [List.filter_cons] at hfil
      rw [if_neg (by simpa using hdc)] at hfil
      obtain ⟨js, hjs, hmem⟩ := ih hfil
      rcases buildJobs_cons_step i now l d details rest with hstep | ⟨af', t', hstep⟩
      · exact ⟨js, hstep ▸ hjs, hmem⟩
      · exact ⟨⟨d, af', t', nextRunAfter now t'⟩ :: js, hstep js hjs, by
          simp only [List.map_cons, List.mem_cons]; exact .inr hmem⟩

/-- Cold-start suppression: when the sole entry named `c` has a valid
time strictly before `now` and `c` is not yet played, the initial-startup
resolver run omits it. -/
lemma buildJobs_cold_skip (now : Instant) (l : List Json) (c ts af : String)
    (t : Nat) (hts : parseTime ts = some t) (haf : af ≠ "") (hgt : now.tod > t)
    (hnp : l.any (pyEqStr c) = false) :
    ∀ entries, entries.filter (fun p => p.1 = c) = [(c, ⟨some ts, some af⟩)] →
      ∃ js, buildJobs true now (.arr l) entries = .ok js ∧
        c ∉ js.map Job.call := by
  intro entries
  induction entries with
  | nil => intro hfil; simp at hfil
  | cons p rest ih =>
    intro hfil
    obtain ⟨d, details⟩ := p
    by_cases hdc : d = c
    · subst hdc
      simp [List.filter_cons] at hfil
      obtain ⟨rfl, hall⟩ := hfil
      have hrest : rest.filter (fun p => p.1 = d) = [] :=
        List.filter_eq_nil_iff.mpr (by rintro ⟨a, b⟩ hab; simpa using hall a b hab)
      obtain ⟨js, hjs⟩ := buildJobs_arr_ok true now l rest
      have hne : ts ≠ "" ∧ af ≠ "" := ⟨parseTime_ne_empty hts, haf⟩
      refine ⟨js, ?_, buildJobs_not_mem true now l d rest hrest js hjs⟩
      simp [buildJobs, hne, hts, hgt, pyIn, hnp, hjs]
    · simp only [List.filter_cons] at hfil
      rw [if_neg (by simpa using hdc)] at hfil
      obtain ⟨js, hjs, hmem⟩ := ih hfil
      rcases buildJobs_cons_step true now l d details rest
        with hstep | ⟨af', t', hstep⟩
      · exact ⟨js, hstep ▸ hjs, hmem⟩
      · refine ⟨⟨d, af', t', nextRunAfter now t'⟩ :: js, hstep js hjs, ?_⟩
        simp only [List.map_cons, List.mem_cons]
        rintro (h | h)
        · exact hdc h.symm
        · exact hmem h

/-- On a well-formed state file for today, `schedule_audio_jobs` is the
resolver loop over today's profile. -/
lemma schedule_audio_jobs_wf (wk we : SchedDict) (now : Instant) (dow : Nat)
    (l : List Json) (i : Bool) :
    schedule_audio_jobs (.parsed wk we) now dow (wfFile (dateStr now.day) l) i
      = buildJobs i now (.arr l)
          (if dow ≤ 4 then wk else if dow ≤ 6 then we else []) := by
  simp [schedule_audio_jobs, load_schedule, wfFile, load_state_wf, jsonGetD,
    lookup_played]

lemma runJobs_none_due (now : Instant) (ok : Bool) (f : StateFile) :
    ∀ jobs, (∀ j ∈ jobs, Instant.le j.nextRun now = false) →
      runJobs now ok jobs f = (jobs, f, none) := by
  intro jobs
  induction jobs with
  | nil => intro _; rfl
  | cons j rest ih =>
    intro h
    have hj := h j (by simp)
    have hrest := ih (fun k hk => h k (by simp [hk]))
    simp [runJobs, hj, hrest]

/-- A tick at which no job is due changes nothing: the loop body contains
no rollover or maintenance action of its own. -/
lemma run_pending_none_due (now : Instant) (ok : Bool) (sys : Sys)
    (h : ∀ j ∈ sys.jobs, Instant.le j.nextRun now = false) :
    run_pending now ok sys = (sys, none) := by
  simp [run_pending, runJobs_none_due now ok sys.file sys.jobs h]

lemma instant_le_refl (d t : Nat) : Instant.le ⟨d, t⟩ ⟨d, t⟩ = true := by
  simp [Instant.le]

lemma instant_le_next_day (d t u : Nat) :
    Instant.le ⟨d + 1, t⟩ ⟨d, u⟩ = false := by
  simp [Instant.le]

/-- A failed firing of a single registered job leaves the state file
unchanged but reschedules the job for the next day at the same time. -/
lemma run_pending_single_fail (d t : Nat) (c a : String) (l : List Json) :
    run_pending ⟨d, t⟩ false ⟨wfFile (dateStr d) l, [⟨c, a, t, ⟨d, t⟩⟩]⟩ =
      (⟨wfFile (dateStr d) l, [⟨c, a, t, ⟨d + 1, t⟩⟩]⟩, none) := by
  simp [run_pending, runJobs, instant_le_refl, play_audio_wf_fail,
    nextRunAfter]

/-- Claim C9 (confirmed): when the playback attempt inside `play_audio`
fails with a `pygame.error`, the persisted state file is never written and
nothing is marked played — in the exception handler the call name is
always absent from `played_calls` (the already-played check at lines 63-65
would have returned first), so the remove-and-save branch at lines 82-84
never runs.  This holds for every possible state-file content. -/
theorem C9_no_save_on_playback_error (c today : String) (f : StateFile) :
    (play_audio c f today false).file = f ∧
      (play_audio c f today false).played = false := by
  cases f with
  | absent =>
    simp [play_audio, load_state, freshState, jsonGet, jsonGetD, pyIn,
      lookup_date, lookup_played, dateMatches_self, jsonGetItem]
  | invalid =>
    simp [play_audio, load_state, freshState, jsonGet, jsonGetD, pyIn,
      lookup_date, lookup_played, dateMatches_self, jsonGetItem]
  | parsed j =>
    cases j with
    | null => simp [play_audio, load_state, jsonGet]
    | bool b => simp [play_audio, load_state, jsonGet]
    | num n => simp [play_audio, load_state, jsonGet]
    | str s => simp [play_audio, load_state, jsonGet]
    | arr xs => simp [play_audio, load_state, jsonGet]
    | obj fields =>
      cases hdm : dateMatches (fields.lookup "date") today with
      | false =>
        simp [play_audio, load_state, jsonGet, hdm, freshState, jsonGetD,
          pyIn, lookup_date, lookup_played, dateMatches_self, jsonGetItem]
      | true =>
        cases hlk : fields.lookup "played_calls" with
        | none =>
          simp [play_audio, load_state, jsonGet, hdm, jsonGetD, hlk, pyIn,
            jsonGetItem]
        | some v =>
          cases v with
          | null =>
            simp [play_audio, load_state, jsonGet, hdm, jsonGetD, hlk, pyIn]
          | bool b =>
            simp [play_audio, load_state, jsonGet, hdm, jsonGetD, hlk, pyIn]
          | num n =>
            simp [play_audio, load_state, jsonGet, hdm, jsonGetD, hlk, pyIn]
          | arr xs =>
            cases hb : xs.any (pyEqStr c) <;>
              simp [play_audio, load_state, jsonGet, hdm, jsonGetD, hlk,
                pyIn, hb, jsonGetItem]
          | str s =>
            cases hb : charsInfix c.data s.data <;>
              simp [play_audio, load_state, jsonGet, hdm, jsonGetD, hlk,
                pyIn, hb, jsonGetItem]
          | obj g =>
            cases hb : g.any (fun p => decide (c = p.1)) <;>
              simp [play_audio, load_state, jsonGet, hdm, jsonGetD, hlk,
                pyIn, hb, jsonGetItem]

/-- Claim C10 (confirmed): `load_state` catches only `JSONDecodeError`;
state-file content that is valid JSON but not an object — here the array
`[1, 2]` — makes `state.get('date')` raise an uncaught `AttributeError`
instead of yielding a fresh state. -/
theorem C10_nonobject_state_uncaught (today : String) :
    load_state .invalid today = .ok (freshState today) ∧
      load_state (.parsed (.arr [.num 1, .num 2])) today =
        .error .attributeError :=
  ⟨rfl, rfl⟩

/-- Claim C8 (confirmed): running the playback-success path twice for the
same call on the same date records the name exactly once — the second
invocation sees the name in `played_calls`, returns without playing, and
appends nothing. -/
theorem C8_success_idempotent (c today : String) (l : List Json)
    (h : l.any (pyEqStr c) = false) :
    play_audio c (wfFile today l) today true =
        ⟨wfFile today (l ++ [.str c]), true, none⟩ ∧
      play_audio c (wfFile today (l ++ [.str c])) today true =
        ⟨wfFile today (l ++ [.str c]), false, none⟩ ∧
      countStr c (l ++ [.str c]) = 1 := by
  have hnil : l.filter (pyEqStr c) = [] :=
    List.filter_eq_nil_iff.mpr fun a ha hpa => by
      have := List.any_eq_true.mpr ⟨a, ha, hpa⟩
      rw [h] at this
      exact Bool.false_ne_true this
  refine ⟨play_audio_wf_success h, ?_, ?_⟩
  · exact play_audio_wf_played (by simp [List.any_append, pyEqStr]) true
  · simp [countStr, List.filter_append, hnil, pyEqStr]

/-- Witness for C8 at the concrete call `taps` with an empty
played-calls list. -/
theorem C8_witness :
    play_audio "taps" (wfFile "2024-03-09" []) "2024-03-09" true =
        ⟨wfFile "2024-03-09" [.str "taps"], true, none⟩ ∧
      play_audio "taps" (wfFile "2024-03-09" [.str "taps"]) "2024-03-09" true =
        ⟨wfFile "2024-03-09" [.str "taps"], false, none⟩ ∧
      countStr "taps" ([] ++ [.str "taps"]) = 1 := by
  simpa using C8_success_idempotent "taps" "2024-03-09" [] rfl

/-- Claim C7 (confirmed): a call not yet played whose time-of-day is
strictly before `now` is excluded by the resolver when
`initial_startup = true` and included when `initial_startup = false`
(audio-player.py lines 133-141). -/
theorem C7_cold_start_suppression (wk we : SchedDict) (now : Instant)
    (dow : Nat) (l : List Json) (c ts af : String) (t : Nat)
    (hsel : (if dow ≤ 4 then wk else if dow ≤ 6 then we else []).filter
        (fun p => p.1 = c) = [(c, ⟨some ts, some af⟩)])
    (hts : parseTime ts = some t) (haf : af ≠ "") (hlt : t < now.tod)
    (hnp : l.any (pyEqStr c) = false) :
    (∃ js, schedule_audio_jobs (.parsed wk we) now dow
        (wfFile (dateStr now.day) l) true = .ok js ∧
          c ∉ js.map Job.call) ∧
      ∃ js, schedule_audio_jobs (.parsed wk we) now dow
        (wfFile (dateStr now.day) l) false = .ok js ∧
          c ∈ js.map Job.call := by
  constructor
  · rw [schedule_audio_jobs_wf]
    exact buildJobs_cold_skip now l c ts af t hts haf hlt hnp _ hsel
  · rw [schedule_audio_jobs_wf]
    exact buildJobs_mem false now l c ts af t hts haf (.inl rfl) _ hsel

/-- Witness for C7: `reveille` due `06:30`, not yet played, at `14:00` —
excluded on a cold start, included on a warm start. -/
theorem C7_witness :
    (∃ js, schedule_audio_jobs
        (.parsed [("reveille", ⟨some "06:30", some "r.mp3"⟩)] [])
        ⟨0, 840⟩ 0 (wfFile (dateStr 0) []) true = .ok js ∧
          "reveille" ∉ js.map Job.call) ∧
      ∃ js, schedule_audio_jobs
        (.parsed [("reveille", ⟨some "06:30", some "r.mp3"⟩)] [])
        ⟨0, 840⟩ 0 (wfFile (dateStr 0) []) false = .ok js ∧
          "reveille" ∈ js.map Job.call :=
  C7_cold_start_suppression [("reveille", ⟨some "06:30", some "r.mp3"⟩)] []
    ⟨0, 840⟩ 0 [] "reveille" "06:30" "r.mp3" 390 rfl rfl (by decide)
    (by decide) rfl

/-- Counterexample to claim C1: with `reveille` already in
`played_calls` for today and its `06:00` slot already past at `14:00` on
an initial startup, `schedule_audio_jobs` still lists `reveille` — the
skip at lines 135-138 requires the call NOT to be played, so an
already-satisfied call is re-listed as a pending job. -/
theorem C1_counterexample :
    schedule_audio_jobs
        (.parsed [("reveille", ⟨some "06:00", some "r.mp3"⟩)] [])
        ⟨0, 840⟩ 0
        (.parsed (.obj [("date", .str (dateStr 0)),
          ("played_calls", .arr [.str "reveille"])]))
        true
      = .ok [⟨"reveille", "r.mp3", 360, ⟨1, 360⟩⟩] ∧
      "reveille" ∈
        ([⟨"reveille", "r.mp3", 360, ⟨1, 360⟩⟩] : List Job).map Job.call :=
  ⟨rfl, by simp⟩

/-- Claim C1 as amended: the resolver does list already-played calls
(any startup mode), but firing such a job is harmless — `play_audio`'s
own already-played check returns without playing and without modifying
the state, so an already-satisfied call is never replayed on the same
date. -/
theorem C1_amended_dedup_at_fire_time (wk we : SchedDict) (now : Instant)
    (dow : Nat) (l : List Json) (c ts af : String) (t : Nat) (i : Bool)
    (hsel : (if dow ≤ 4 then wk else if dow ≤ 6 then we else []).filter
        (fun p => p.1 = c) = [(c, ⟨some ts, some af⟩)])
    (hts : parseTime ts = some t) (haf : af ≠ "")
    (hpl : l.any (pyEqStr c) = true) :
    (∃ js, schedule_audio_jobs (.parsed wk we) now dow
        (wfFile (dateStr now.day) l) i = .ok js ∧ c ∈ js.map Job.call) ∧
      ∀ ok, play_audio c (wfFile (dateStr now.day) l) (dateStr now.day) ok =
        ⟨wfFile (dateStr now.day) l, false, none⟩ := by
  constructor
  · rw [schedule_audio_jobs_wf]
    exact buildJobs_mem i now l c ts af t hts haf (.inr (.inr hpl)) _ hsel
  · exact fun ok => play_audio_wf_played hpl ok

/-- Witness for the amended C1 at the concrete `reveille` scenario. -/
theorem C1_witness :
    (∃ js, schedule_audio_jobs
        (.parsed [("reveille", ⟨some "06:00", some "r.mp3"⟩)] [])
        ⟨0, 900⟩ 0 (wfFile (dateStr 0) [.str "reveille"]) true = .ok js ∧
          "reveille" ∈ js.map Job.call) ∧
      ∀ ok, play_audio "reveille" (wfFile (dateStr 0) [.str "reveille"])
          (dateStr 0) ok =
        ⟨wfFile (dateStr 0) [.str "reveille"], false, none⟩ :=
  C1_amended_dedup_at_fire_time
    [("reveille", ⟨some "06:00", some "r.mp3"⟩)] [] ⟨0, 900⟩ 0
    [.str "reveille"] "reveille" "06:00" "r.mp3" 360 true rfl rfl
    (by decide) rfl

/-- Counterexample to claim C2: `reveille` due `06:00` fails at `06:00`
(device error) — `played_calls` stays empty — but at `06:01` the job is
NOT pending any more: its `next_run` moved to the next day, so no firing
happens even though the device now works. -/
theorem C2_counterexample :
    run_pending ⟨0, 360⟩ false
        (⟨wfFile (dateStr 0) [],
          [⟨"reveille", "r.mp3", 360, ⟨0, 360⟩⟩]⟩ : Sys) =
      (⟨wfFile (dateStr 0) [],
        [⟨"reveille", "r.mp3", 360, ⟨1, 360⟩⟩]⟩, none) ∧
      run_pending ⟨0, 361⟩ true
        (⟨wfFile (dateStr 0) [],
          [⟨"reveille", "r.mp3", 360, ⟨1, 360⟩⟩]⟩ : Sys) =
      (⟨wfFile (dateStr 0) [],
        [⟨"reveille", "r.mp3", 360, ⟨1, 360⟩⟩]⟩, none) :=
  ⟨rfl, rfl⟩

/-- Claim C2 as amended: a failed playback is indeed not marked as
played (the state file is untouched), but the job is not retried the same
day — the `schedule` library reschedules a fired daily job to the next
day at the same time, so no later tick of the same day fires it again. -/
theorem C2_amended_no_same_day_retry (d t : Nat) (c a : String)
    (l : List Json) :
    run_pending ⟨d, t⟩ false
        ⟨wfFile (dateStr d) l, [⟨c, a, t, ⟨d, t⟩⟩]⟩ =
      (⟨wfFile (dateStr d) l, [⟨c, a, t, ⟨d + 1, t⟩⟩]⟩, none) ∧
      ∀ (u : Nat) (ok : Bool),
        run_pending ⟨d, u⟩ ok
            ⟨wfFile (dateStr d) l, [⟨c, a, t, ⟨d + 1, t⟩⟩]⟩ =
          (⟨wfFile (dateStr d) l, [⟨c, a, t, ⟨d + 1, t⟩⟩]⟩, none) := by
  refine ⟨run_pending_single_fail d t c a l, fun u ok => ?_⟩
  refine run_pending_none_due _ _ _ ?_
  intro j hj
  simp at hj
  subst hj
  exact instant_le_next_day d t u

/-- Counterexample to claim C3: a system whose state file still carries
yesterday's date and a non-empty `played_calls`, ticked on the new day at
`00:00`, `00:01` (the claimed maintenance time) and `00:02`, is left
completely unchanged — no reset is written and the job list is not
recomputed; the loop body has no rollover transition at all. -/
theorem C3_counterexample :
    loopRun [(⟨1, 0⟩, true), (⟨1, 1⟩, true), (⟨1, 2⟩, true)]
        ⟨.parsed (.obj [("date", .str (dateStr 0)),
            ("played_calls", .arr [.str "taps"])]),
          [⟨"taps", "t.mp3", 1260, ⟨1, 1260⟩⟩]⟩ =
      ⟨.parsed (.obj [("date", .str (dateStr 0)),
          ("played_calls", .arr [.str "taps"])]),
        [⟨"taps", "t.mp3", 1260, ⟨1, 1260⟩⟩]⟩ :=
  rfl

/-- Claim C3 as amended: the execution loop performs no explicit
day-rollover handling — a tick at which no job is due changes nothing,
whatever the date — and stale state is instead discarded lazily inside
`play_audio`: the next firing on a new day loads a fresh state (because
the stored date differs) and records only the newly played call. -/
theorem C3_amended_lazy_rollover :
    (∀ (now : Instant) (ok : Bool) (sys : Sys),
        (∀ j ∈ sys.jobs, Instant.le j.nextRun now = false) →
          run_pending now ok sys = (sys, none)) ∧
      ∀ (c today : String) (dv : Json) (l : List Json),
        dateMatches (some dv) today = false →
          play_audio c
              (.parsed (.obj [("date", dv), ("played_calls", .arr l)]))
              today true =
            ⟨.parsed (.obj [("date", .str today),
              ("played_calls", .arr [.str c])]), true, none⟩ := by
  constructor
  · exact fun now ok sys h => run_pending_none_due now ok sys h
  · intro c today dv l hdm
    simp [play_audio, load_state, jsonGet, lookup_date, lookup_played, hdm,
      freshState, jsonGetD, pyIn, dateMatches_self, jsonGetItem, jsonAppend,
      jsonSetField]

/-- Witness for the amended C3: an idle tick changes nothing, and a
firing on day 5 against a day-4 state file yields a fresh day-5 state
containing only the fired call. -/
theorem C3_witness :
    run_pending ⟨5, 100⟩ true
        (⟨wfFile (dateStr 5) [], [⟨"taps", "t.mp3", 1260, ⟨5, 1260⟩⟩]⟩ : Sys)
      = (⟨wfFile (dateStr 5) [],
          [⟨"taps", "t.mp3", 1260, ⟨5, 1260⟩⟩]⟩, none) ∧
      play_audio "reveille"
          (.parsed (.obj [("date", .str (dateStr 4)),
            ("played_calls", .arr [.str "taps"])])) (dateStr 5) true =
        ⟨.parsed (.obj [("date", .str (dateStr 5)),
          ("played_calls", .arr [.str "reveille"])]), true, none⟩ := by
  constructor
  · refine C3_amended_lazy_rollover.1 ⟨5, 100⟩ true _ ?_
    intro j hj
    simp at hj
    subst hj
    rfl
  · exact C3_amended_lazy_rollover.2 "reveille" (dateStr 5)
      (.str (dateStr 4)) [.str "taps"] rfl

/-- Counterexample to claim C4: the manual play command does consult and
update `playedCalls` — with `Manual Playback` already recorded for today
it plays nothing, and a successful manual play writes `Manual Playback`
into the persisted state. -/
theorem C4_counterexample :
    manual_play (wfFile "2024-05-01" [.str "Manual Playback"]) "2024-05-01"
        true =
      ⟨wfFile "2024-05-01" [.str "Manual Playback"], false, none⟩ ∧
      manual_play (wfFile "2024-05-01" []) "2024-05-01" true =
        ⟨wfFile "2024-05-01" [.str "Manual Playback"], true, none⟩ :=
  ⟨rfl, rfl⟩

/-- Claim C4 as amended: the `play` subcommand routes through
`play_audio` under the fixed name `Manual Playback`: if that name is in
today's `played_calls` the clip is not played at all, and a successful
manual play appends `Manual Playback` to the persisted state — manual
playback is neither unconditional nor state-free. -/
theorem C4_amended_manual_uses_state (today : String) (l : List Json) :
    (l.any (pyEqStr "Manual Playback") = true →
        ∀ ok, manual_play (wfFile today l) today ok =
          ⟨wfFile today l, false, none⟩) ∧
      (l.any (pyEqStr "Manual Playback") = false →
        manual_play (wfFile today l) today true =
          ⟨wfFile today (l ++ [.str "Manual Playback"]), true, none⟩) :=
  ⟨fun h ok => play_audio_wf_played h ok, fun h => play_audio_wf_success h⟩

/-- Witness for the amended C4 on concrete states. -/
theorem C4_witness :
    manual_play (wfFile "2024-06-02" [.str "Manual Playback"]) "2024-06-02"
        true =
      ⟨wfFile "2024-06-02" [.str "Manual Playback"], false, none⟩ ∧
      manual_play (wfFile "2024-06-02" []) "2024-06-02" true =
        ⟨wfFile "2024-06-02" ([] ++ [.str "Manual Playback"]), true, none⟩ :=
  ⟨(C4_amended_manual_uses_state "2024-06-02" [.str "Manual Playback"]).1
      rfl true,
    (C4_amended_manual_uses_state "2024-06-02" []).2 rfl⟩

/-- Counterexample to claim C5: an absent or unparseable configuration
does not raise `ConfigError` and does not exit — `load_schedule` returns
empty profiles normally (lines 95-100) and the scheduling pass completes
with an empty job list. -/
theorem C5_counterexample :
    load_schedule .absent = .ok ([], []) ∧
      load_schedule .malformed = .ok ([], []) ∧
      schedule_audio_jobs .absent ⟨0, 480⟩ 2 .absent false = .ok [] :=
  ⟨rfl, rfl, rfl⟩

/-- Claim C5 as amended: absent or malformed configuration is non-fatal —
`load_schedule` logs and returns two empty profiles and the resolver
produces an empty job list, the process keeps running; a call entry with
a missing or empty `time`/`audio_file` is skipped individually without
affecting the other entries. -/
theorem C5_amended_config_nonfatal :
    (∀ (now : Instant) (dow : Nat) (l : List Json) (i : Bool),
        schedule_audio_jobs .absent now dow (wfFile (dateStr now.day) l) i =
            .ok [] ∧
          schedule_audio_jobs .malformed now dow (wfFile (dateStr now.day) l)
            i = .ok []) ∧
      ∀ (c : String) (e : CallEntry),
        e.time = none ∨ e.audio_file = none ∨ e.time = some "" ∨
          e.audio_file = some "" →
        ∀ (rest we : SchedDict) (now : Instant) (dow : Nat) (f : StateFile)
          (i : Bool),
          schedule_audio_jobs (.parsed ((c, e) :: rest) we) now dow f i =
            schedule_audio_jobs (.parsed rest we) now dow f i := by
  constructor
  · intro now dow l i
    constructor <;>
      simp [schedule_audio_jobs, load_schedule, wfFile, load_state_wf,
        jsonGetD, lookup_played, buildJobs]
  · intro c e he rest we now dow f i
    have hstep : ∀ played, buildJobs i now played ((c, e) :: rest) =
        buildJobs i now played rest := by
      intro played
      rcases he with h | h | h | h <;> obtain ⟨ts?, af?⟩ := e <;>
        simp only [] at h <;> subst h
      · rfl
      · cases ts? with
        | none => rfl
        | some ts => rfl
      · cases af? with
        | none => rfl
        | some af => simp [buildJobs]
      · cases ts? with
        | none => rfl
        | some ts => simp [buildJobs]
    cases hls : load_state f (dateStr now.day) with
    | error e' => simp [schedule_audio_jobs, load_schedule, hls]
    | ok state =>
      cases hgd : jsonGetD state "played_calls" (.arr []) with
      | error e' => simp [schedule_audio_jobs, load_schedule, hls, hgd]
      | ok played =>
        by_cases hdow : dow ≤ 4
        · simp [schedule_audio_jobs, load_schedule, hls, hgd, hdow, hstep]
        · simp [schedule_audio_jobs, load_schedule, hls, hgd, hdow]

/-- Witness for the amended C5 on concrete inputs: absent configuration
schedules nothing, and an entry without a `time` is dropped without
affecting its neighbour. -/
theorem C5_witness :
    schedule_audio_jobs .absent ⟨3, 600⟩ 1 (wfFile (dateStr 3) []) true =
        .ok [] ∧
      schedule_audio_jobs
          (.parsed [("broken", ⟨none, some "x.mp3"⟩),
            ("taps", ⟨some "21:00", some "t.mp3"⟩)] [])
          ⟨0, 100⟩ 0 (wfFile (dateStr 0) []) false =
        schedule_audio_jobs
          (.parsed [("taps", ⟨some "21:00", some "t.mp3"⟩)] [])
          ⟨0, 100⟩ 0 (wfFile (dateStr 0) []) false :=
  ⟨(C5_amended_config_nonfatal.1 ⟨3, 600⟩ 1 [] true).1,
    C5_amended_config_nonfatal.2 "broken" ⟨none, some "x.mp3"⟩ (.inl rfl)
      [("taps", ⟨some "21:00", some "t.mp3"⟩)] [] ⟨0, 100⟩ 0
      (wfFile (dateStr 0) []) false⟩

/-- Counterexample to claim C6: a state file holding the valid JSON value
`[]` (parseable, but not an object) makes `load_state` raise an uncaught
`AttributeError` instead of returning a fresh state for today. -/
theorem C6_counterexample :
    load_state (.parsed (.arr [])) (dateStr 7) = .error .attributeError :=
  rfl

/-- Claim C6 as amended: for state-file content that is absent,
unparseable, or parses to a JSON object, `load_state` returns a state
dated today — and when the stored date differs from today the result is
the fresh empty state, never a carried-over set; content parsing to a
non-object raises instead. -/
theorem C6_amended_load_state_today (today : String) (f : StateFile)
    (fields : List (String × Json))
    (h : f = .absent ∨ f = .invalid ∨ f = .parsed (.obj fields)) :
    (∃ s, load_state f today = .ok s ∧
        jsonGet s "date" = .ok (some (.str today))) ∧
      (dateMatches (fields.lookup "date") today = false →
        load_state (.parsed (.obj fields)) today = .ok (freshState today)) := by
  constructor
  · rcases h with rfl | rfl | rfl
    · exact ⟨freshState today, rfl, rfl⟩
    · exact ⟨freshState today, rfl, rfl⟩
    · cases hdm : dateMatches (fields.lookup "date") today with
      | true =>
        refine ⟨.obj fields, ?_, ?_⟩
        · simp [load_state, jsonGet, hdm]
        · simp [jsonGet, dateMatches_eq_true hdm]
      | false =>
        refine ⟨freshState today, ?_, rfl⟩
        simp [load_state, jsonGet, hdm]
  · intro hdm
    simp [load_state, jsonGet, hdm]

/-- Witness for the amended C6: yesterday's state yields today's fresh
empty state. -/
theorem C6_witness :
    (∃ s, load_state
        (.parsed (.obj [("date", .str (dateStr 1)),
          ("played_calls", .arr [.str "x"])])) (dateStr 2) = .ok s ∧
        jsonGet s "date" = .ok (some (.str (dateStr 2)))) ∧
      load_state
          (.parsed (.obj [("date", .str (dateStr 1)),
            ("played_calls", .arr [.str "x"])])) (dateStr 2) =
        .ok (freshState (dateStr 2)) :=
  ⟨(C6_amended_load_state_today (dateStr 2) _
      [("date", .str (dateStr 1)), ("played_calls", .arr [.str "x"])]
      (.inr (.inr rfl))).1,
    (C6_amended_load_state_today (dateStr 2) _
      [("date", .str (dateStr 1)), ("played_calls", .arr [.str "x"])]
      (.inr (.inr rfl))).2 rfl⟩

end AudioScheduler
